import Mathlib

/-!
Verification development for the yt-DeepResearch-Backend repository.

The definitions below are a shallow embedding of the Python sources:
  * `services/deep_research_service.py` — event translation and the research
    event stream (`DeepResearchService`);
  * `main.py` — the SSE generator `generate_research_stream`, the comparison
    orchestrator `run_multi_model_comparison` / `run_model_research`;
  * `utils/metrics.py` — `MetricsCollector` (history, deletion, comparison
    session storage);
  * `services/model_service.py` — the model registry.

Wall-clock times are embedded as exact integers (Python uses floats; the
claims under study are about which intervals are credited and how they sum,
not rounding, and the embedding performs no division).
Dynamically-shaped engine payloads are embedded as a record of optional
fields, following the repository's own design note that presence checks
(`hasattr`) become `Option` matches.  The data classes declared in the
repository's `models/research_models.py` (not part of the sources at hand)
are modelled from the spec: `StreamingEvent`, `ResearchStage`, `StageTimings`
(fields default to zero), `ComparisonResult`, `ComparisonSession`.
-/

namespace DeepResearch

/-- Logical research stages, from the spec's enumeration for
`models/research_models.py` (`ResearchStage` is a string-valued enum). -/
inductive ResearchStage
  | initialization
  | clarification
  | research_brief
  | research_execution
  | final_report
  | completed
  | error
deriving DecidableEq, Repr

/-- The string value of a stage (the Python enum is a `str` enum, compared
against plain strings such as `"clarification"` in `main.py`). -/
def ResearchStage.val : ResearchStage → String
  | .initialization => "initialization"
  | .clarification => "clarification"
  | .research_brief => "research_brief"
  | .research_execution => "research_execution"
  | .final_report => "final_report"
  | .completed => "completed"
  | .error => "error"

/-- Projection of an event's `metadata` dict to the two keys the comparison
loop in `main.py` reads (`metadata.get("sources", [])`,
`metadata.get("tool_name")`).  The service populates neither key, which is
exactly what claim C8 is about; all other metadata keys are never read by
the code under study. -/
structure Meta where
  sources : Option (List String) := none
  tool_name : Option String := none
deriving DecidableEq, Repr

/-- The `StreamingEvent` (modelled from the spec for
`models/research_models.py`): event kind, stage, human-readable content,
correlation ids and optional error text.  The `timestamp` field (a wall
clock rendering) is omitted; no claim reads it. -/
structure StreamingEvent where
  type : String
  stage : Option ResearchStage := none
  content : String := ""
  research_id : String := ""
  model : String := ""
  metadata : Meta := {}
  error : Option String := none
deriving DecidableEq, Repr

/-- A raw engine payload (`node_data`), embedded as the set of optional
fields the service probes via `hasattr`: `messages` (each message's textual
`content`), `research_brief`, `notes`, `compressed_research`, `final_report`
and the generic content attributes `content`/`response`/`output`/`result`/
`text` probed by `_extract_ai_messages`.  `dict_str` stands for
`str(node_data.__dict__)` (a Python-runtime rendering) and `raising` marks a
payload whose attribute probing raises, exercising the translator's
`except` paths. -/
structure NodeData where
  messages : Option (List String) := none
  research_brief : Option String := none
  notes : Option (List String) := none
  compressed_research : Option String := none
  final_report : Option String := none
  content : Option String := none
  response : Option String := none
  output : Option String := none
  result : Option String := none
  text : Option String := none
  dict_str : String := ""
  raising : Bool := false
deriving DecidableEq, Repr

/-- The payload with no recognizable fields at all. -/
def NodeData.empty : NodeData := {}

/-- Python-style truncation `s[:n] + "..." if len(s) > n else s`. -/
def pyTrunc (n : Nat) (s : String) : String :=
  if s.length > n then s.take n ++ "..." else s

/-- The `_extract_ai_messages` (`deep_research_service.py:369`): collect
substantial message contents (length > 20, not `Human:`-prefixed), truncated
at 500 characters, then the first generic content attribute of length > 20,
capped to 5 messages.  Its own `except` returns `[]`. -/
def extract_ai_messages (nd : NodeData) : List String :=
  if nd.raising then [] else
  let fromMsgs : List String :=
    match nd.messages with
    | some msgs =>
        (msgs.filter (fun c => c.length > 20 && !(c.startsWith "Human:"))).map (pyTrunc 500)
    | none => []
  let fromAttrs : List String :=
    match ([nd.content, nd.response, nd.output, nd.result, nd.text].filterMap id).find?
        (fun v => v ≠ "" && v.length > 20) with
    | some v => [pyTrunc 500 v]
    | none => []
  (fromMsgs ++ fromAttrs).take 5

/-- The `_extract_text_content` (`deep_research_service.py:411`): last message
of length > 50 (truncated at 300), else `str(node_data.__dict__)` truncated
at 200 when longer than 100 characters, else `""`.  Its own `except`
returns `""`. -/
def extract_text_content (nd : NodeData) : String :=
  if nd.raising then "" else
  let lastLong : Option String :=
    match nd.messages with
    | some msgs => msgs.reverse.find? (fun c => c.length > 50)
    | none => none
  match lastLong with
  | some c => c.take 300 ++ (if c.length > 300 then "..." else "")
  | none => if nd.dict_str.length > 100 then nd.dict_str.take 200 ++ "..." else ""

/-- The `_extract_sources_from_text` (`deep_research_service.py:442`), modelled
on its URL branch: whitespace-separated tokens starting with `http://` or
`https://`, deduplicated, filtered to length > 3, capped to 5.  The
additional free-text citation regexes are heuristic enrichment (spec §9);
no claim depends on their output, which only feeds an optional
`Sources:` suffix line. -/
def extract_sources_from_text (s : String) : List String :=
  let urls := (s.split Char.isWhitespace).filter
    (fun t => t.startsWith "http://" || t.startsWith "https://")
  ((urls.eraseDups).filter (fun t => t.length > 3)).take 5

/-- Python `str.title()` over a space-separated phrase: each word lowered
then capitalized. -/
def pyTitle (s : String) : String :=
  String.intercalate " " ((s.splitOn " ").map (fun w => w.toLower.capitalize))

/-- The `clarify_with_user` branch of `_generate_node_content`
(`deep_research_service.py:272-285`), as the suffix appended to its base
string. -/
def clarifyExtras (nd : NodeData) : String :=
  let ai := extract_ai_messages nd
  if ai ≠ [] then
    ((ai.take 3).enum.map
      (fun p => "\n🤖 Message " ++ toString (p.1 + 1) ++ ": " ++ p.2)).foldl
      (· ++ ·) "\n\n💭 AI Clarification Process:"
  else
    let fb := extract_text_content nd
    if fb ≠ "" then "\n💭 AI Decision: " ++ fb else ""

/-- The `write_research_brief` branch (`deep_research_service.py:287-306`),
as the suffix appended to its base string. -/
def briefExtras (nd : NodeData) : String :=
  let ai := extract_ai_messages nd
  let s1 : String :=
    if ai ≠ [] then
      ((ai.take 2).enum.map
        (fun p => "\n🤖 Brief " ++ toString (p.1 + 1) ++ ": " ++ p.2)).foldl
        (· ++ ·) "\n\n📋 AI Research Brief Generation:"
    else ""
  let s2 : String :=
    match nd.research_brief with
    | some b => if b ≠ "" then "\n📄 Final Brief: " ++ pyTrunc 300 b else ""
    | none => ""
  let s3 : String :=
    if ai = [] then
      let fb := extract_text_content nd
      if fb ≠ "" then "\n📋 Research Strategy: " ++ fb else ""
    else ""
  s1 ++ s2 ++ s3

/-- One finding line of the `research_supervisor` branch
(`deep_research_service.py:316-324`). -/
def findingLine (p : Nat × String) : String :=
  if p.2 ≠ "" && p.2.length > 20 then
    let sources := extract_sources_from_text p.2
    "\n🔍 Finding " ++ toString (p.1 + 1) ++ ": " ++ pyTrunc 150 p.2 ++
      (if sources ≠ [] then "\n📎 Sources: " ++ String.intercalate ", " (sources.take 2)
       else "")
  else ""

/-- The `research_supervisor` branch (`deep_research_service.py:308-329`),
as the suffix appended to its base string. -/
def supervisorExtras (nd : NodeData) : String :=
  let s1 : String :=
    match nd.notes with
    | some ns =>
        if ns ≠ [] then
          ((ns.take 3).enum.map findingLine).foldl (· ++ ·)
            ("\n📊 Found " ++ toString ns.length ++ " research findings")
        else ""
    | none => ""
  let s2 : String :=
    match nd.compressed_research with
    | some c => if c ≠ "" then "\n📝 Research Summary: " ++ pyTrunc 200 c else ""
    | none => ""
  s1 ++ s2

/-- The `final_report_generation` branch
(`deep_research_service.py:331-350`), as the suffix appended to its base
string. -/
def reportExtras (nd : NodeData) : String :=
  let ai := extract_ai_messages nd
  let s1 : String :=
    if ai ≠ [] then
      ((ai.take 2).enum.map
        (fun p => "\n🤖 Report " ++ toString (p.1 + 1) ++ ": " ++ p.2)).foldl
        (· ++ ·) "\n\n📄 AI Report Generation:"
    else ""
  let s2 : String :=
    match nd.final_report with
    | some r => if r ≠ "" then "\n📋 Generated Report: " ++ pyTrunc 400 r else ""
    | none => ""
  let s3 : String :=
    if ai = [] then
      let fb := extract_text_content nd
      if fb ≠ "" then "\n📄 Final Report: " ++ fb else ""
    else ""
  s1 ++ s2 ++ s3

/-- The per-node base-plus-extras content of `_generate_node_content`
(`deep_research_service.py:272-353`), before the generic-message block. -/
def branchContent (node_name : String) (nd : NodeData) (node_count : Nat) : String :=
  if node_name == "clarify_with_user" then
    "🔍 Step " ++ toString node_count ++
      ": Analyzing research scope and clarifying requirements" ++ clarifyExtras nd
  else if node_name == "write_research_brief" then
    "📝 Step " ++ toString node_count ++
      ": Creating comprehensive research brief and strategy" ++ briefExtras nd
  else if node_name == "research_supervisor" then
    "🔬 Step " ++ toString node_count ++
      ": Conducting deep research using multiple tools and sources" ++ supervisorExtras nd
  else if node_name == "final_report_generation" then
    "📊 Step " ++ toString node_count ++
      ": Generating final research report with findings and analysis" ++ reportExtras nd
  else
    "⚙️ Step " ++ toString node_count ++ ": Processing " ++
      pyTitle ((node_name.map (fun c => if c = '_' then ' ' else c)))

/-- The generic-message block of `_generate_node_content`
(`deep_research_service.py:356-361`): when the content is still single-line
and messages are present, append a preview of the first message longer than
50 characters. -/
def genericMessageBlock (extracted : String) (nd : NodeData) : String :=
  if !(extracted.contains '\n') then
    match nd.messages with
    | some msgs =>
        if msgs ≠ [] then
          match msgs.find? (fun c => c.length > 50) with
          | some m => extracted ++ "\n💭 Content: " ++ pyTrunc 200 m
          | none => extracted
        else extracted
    | none => extracted
  else extracted

/-- The happy path of `_generate_node_content`: branch content plus the
generic-message block. -/
def generateNodeContentOk (node_name : String) (nd : NodeData) (node_count : Nat) : String :=
  genericMessageBlock (branchContent node_name nd node_count) nd

/-- The `_generate_node_content` (`deep_research_service.py:251-367`).  Its body
sits in a `try`; a payload whose attribute probing raises (`nd.raising`)
takes the `except` path and returns the templated fallback
`"⚙️ Step N: Processing <node_name>"` — the fallback that claim C4 says must
always succeed. -/
def generate_node_content (node_name : String) (nd : NodeData) (node_count : Nat) : String :=
  if nd.raising then
    "⚙️ Step " ++ toString node_count ++ ": Processing " ++ node_name
  else
    generateNodeContentOk node_name nd node_count

/-- The node-name → stage lookup table of `_process_workflow_node`
(`deep_research_service.py:213-220`); unknown names default to
`research_execution`. -/
def stageMapping (node_name : String) : ResearchStage :=
  if node_name == "clarify_with_user" then .clarification
  else if node_name == "write_research_brief" then .research_brief
  else if node_name == "research_supervisor" then .research_execution
  else if node_name == "final_report_generation" then .final_report
  else .research_execution

/-- The `_process_workflow_node` (`deep_research_service.py:190-249`): one
`stage_update` event per node.  Within the embedding the body is total
(every payload probe is caught inside `generate_node_content`), so the
function's own `except` branch — which would return an `error` event — is
not reachable. -/
def process_workflow_node (node_name : String) (nd : NodeData)
    (research_id model : String) (node_count : Nat) : StreamingEvent :=
  { type := "stage_update"
    stage := some (stageMapping node_name)
    content := generate_node_content node_name nd node_count
    research_id := research_id
    model := model }

/-- One `research_finding` event of `_process_research_supervisor_data`
(`deep_research_service.py:501-516`). -/
def findingEvent (research_id model : String) (p : Nat × String) : StreamingEvent :=
  { type := "research_finding"
    stage := some .research_execution
    content := "🔍 Research Finding " ++ toString (p.1 + 1) ++ ": " ++ pyTrunc 200 p.2
    research_id := research_id
    model := model }

/-- The `_process_research_supervisor_data` (`deep_research_service.py:483-531`):
one `research_finding` per substantial note (nonempty, length > 50) and one
`research_summary` when a compressed research text is present; its `except`
yields nothing further. -/
def process_research_supervisor_data (nd : NodeData)
    (research_id model : String) : List StreamingEvent :=
  if nd.raising then [] else
  let findings : List StreamingEvent :=
    match nd.notes with
    | some ns =>
        ns.enum.filterMap (fun p =>
          if p.2 ≠ "" && p.2.length > 50 then some (findingEvent research_id model p)
          else none)
    | none => []
  let summary : List StreamingEvent :=
    match nd.compressed_research with
    | some c =>
        if c ≠ "" then
          [{ type := "research_summary"
             stage := some .research_execution
             content := "📊 Research Summary: " ++ pyTrunc 300 c
             research_id := research_id
             model := model }]
        else []
    | none => []
  findings ++ summary

/-- One update chunk produced by the external engine's `astream`: a mapping
from node names to payloads, in iteration order. -/
structure Chunk where
  items : List (String × NodeData)
deriving DecidableEq, Repr

/-- One run of the opaque external engine (`deep_researcher.astream`): the
chunks it yields, followed either by normal exhaustion (`failure = none`) or
by an exception carrying a message (the mid-stream raise of claims C1/C2/C9).
-/
structure EngineRun where
  chunks : List Chunk
  failure : Option String := none
deriving DecidableEq, Repr

/-- The initial `stage_start` event of `stream_research`
(`deep_research_service.py:75-83`). -/
def stageStartEvent (query research_id model : String) : StreamingEvent :=
  { type := "stage_start"
    stage := some .initialization
    content := "🚀 Starting deep research for: " ++ query
    research_id := research_id
    model := model }

/-- The events produced for one chunk (`deep_research_service.py:97-111`):
the translated `stage_update` for every node, and for `research_supervisor`
nodes the supplementary finding/summary events.  (`node_data` is an object,
hence always truthy in the Python guard.) -/
def processChunkItems (research_id model : String) (node_count : Nat) :
    List (String × NodeData) → List StreamingEvent
  | [] => []
  | p :: rest =>
      process_workflow_node p.1 p.2 research_id model node_count ::
        (if p.1 == "research_supervisor" then
          process_research_supervisor_data p.2 research_id model
         else []) ++ processChunkItems research_id model node_count rest

/-- The events produced by the engine loop of `stream_research`, with
`node_count` incremented once per chunk. -/
def processChunks (research_id model : String) : List Chunk → Nat → List StreamingEvent
  | [], _ => []
  | c :: rest, n =>
      processChunkItems research_id model (n + 1) c.items ++
        processChunks research_id model rest (n + 1)

/-- The `current_stage` tracked by `stream_research`
(`deep_research_service.py:63,103`): updated from every translator event
(whose stage is always set, hence truthy), starting from `initialization`. -/
def lastStage (chunks : List Chunk) : ResearchStage :=
  ((chunks.map Chunk.items).flatten).foldl (fun _ p => stageMapping p.1) .initialization

/-- The terminal `stage_complete` event (`deep_research_service.py:114-122`).
-/
def stageCompleteEvent (research_id model : String) (_node_count : Nat) : StreamingEvent :=
  { type := "stage_complete"
    stage := some .completed
    content := "✅ Deep research completed successfully!"
    research_id := research_id
    model := model }

/-- The terminal `error` event of `stream_research`'s `except` branch
(`deep_research_service.py:124-134`). -/
def streamErrorEvent (research_id model msg : String) (stage : ResearchStage) : StreamingEvent :=
  { type := "error"
    stage := some stage
    content := "❌ Error occurred: " ++ msg
    research_id := research_id
    model := model
    error := some msg }

/-- The `DeepResearchService.stream_research` (`deep_research_service.py:44-134`)
as the list of events it yields for a given engine run: the initial
`stage_start`, the per-chunk events, then either the `stage_complete` event
or — when the engine raises — the single `error` event produced by the
generator's own `except` handler.  Note the generator never re-raises: every
engine exception becomes an in-band `error` event. -/
def stream_research (query model _api_key research_id : String) (eng : EngineRun) :
    List StreamingEvent :=
  stageStartEvent query research_id model ::
    processChunks research_id model eng.chunks 0 ++
    (match eng.failure with
     | none => [stageCompleteEvent research_id model eng.chunks.length]
     | some msg => [streamErrorEvent research_id model msg (lastStage eng.chunks)])

/-- One SSE frame written by `generate_research_stream` in `main.py`: the
raw `session_start` dict, a serialized service event, or the raw
`research_complete` dict. -/
inductive Frame
  | sessionStart (research_id model query : String)
  | event (e : StreamingEvent)
  | researchComplete (research_id model : String) (duration : ℤ)
deriving DecidableEq, Repr

/-- The `type` field of a frame's JSON payload. -/
def Frame.kind : Frame → String
  | .sessionStart _ _ _ => "session_start"
  | .event e => e.type
  | .researchComplete _ _ _ => "research_complete"

/-- The `StageTimings` (modelled from the spec for
`models/research_models.py`): per-stage elapsed seconds, each field
defaulting to zero (`StageTimings()` starts a run empty). -/
structure StageTimings where
  clarification : ℤ := 0
  research_brief : ℤ := 0
  research_execution : ℤ := 0
  final_report : ℤ := 0
deriving DecidableEq, Repr

/-- The `if current_stage == ... : stage_timings.<field> = duration`
chains of `run_model_research` (`main.py:268-275,299-306,317-324`): an
assignment (not accumulation) to the field of the stage being left; stages
other than the four named ones are not credited. -/
def assignStage (st : StageTimings) (stage : String) (d : ℤ) : StageTimings :=
  if stage == "clarification" then { st with clarification := d }
  else if stage == "research_brief" then { st with research_brief := d }
  else if stage == "research_execution" then { st with research_execution := d }
  else if stage == "final_report" then { st with final_report := d }
  else st

/-- The `ComparisonResult` (modelled from the spec for
`models/research_models.py`). -/
structure ComparisonResult where
  model : String
  duration : ℤ
  stage_timings : StageTimings
  sources_found : Nat
  word_count : Nat
  success : Bool
  error : Option String := none
  report_content : String
  supervisor_tools_used : List String
deriving DecidableEq, Repr

/-- The `ComparisonSession` (modelled from the spec for
`models/research_models.py`); `user_feedback` (attached later, never by the
code under study) is omitted. -/
structure ComparisonSession where
  session_id : String
  query : String
  timestamp : String
  results : List ComparisonResult
deriving DecidableEq, Repr

/-- A record of the in-memory metrics history
(`MetricsCollector.research_history` in `utils/metrics.py`): a single-run
dict (which has a `research_id` key) or a comparison-session fallback dict
(which has only `type`/`data`/`timestamp` keys — no `research_id`). -/
inductive HistoryRec
  | run (research_id model : String) (duration : ℤ) (query : String)
        (success : Bool) (timestamp : String) (error : Option String)
  | comparison (data : ComparisonSession) (timestamp : String)
deriving DecidableEq, Repr

/-- The Python default of `store_research_metrics`'s `success` parameter
(`utils/metrics.py:46`). -/
def pyDefaultSuccess : Bool := true

/-- The `MetricsCollector.store_research_metrics` (`utils/metrics.py:40-89`),
restricted to its `research_history` append (the per-model aggregate update
is read by no claim). -/
def store_research_metrics (hist : List HistoryRec)
    (research_id model : String) (duration : ℤ) (query : String)
    (timestamp : String) (success : Bool) (error : Option String) :
    List HistoryRec :=
  hist ++ [.run research_id model duration query success timestamp error]

/-- The `generate_research_stream` (`main.py:129-176`): the SSE frames of one
single-session request together with the metrics history after the run.
Within the embedding `stream_research` is total (it converts every engine
exception into an in-band `error` event), so the generator's `except`
branch never fires: the frames are always `session_start`, the service
events, then the `research_complete` frame, and
`store_research_metrics` is always called — with only
`research_id`/`model`/`duration`/`query` passed, so `success` takes its
Python default `True` and `error` its default `None`. -/
def generate_research_stream (query model api_key research_id timestamp : String)
    (eng : EngineRun) (start_time end_time : ℤ) (hist : List HistoryRec) :
    List Frame × List HistoryRec :=
  (Frame.sessionStart research_id model query ::
     (stream_research query model api_key research_id eng).map Frame.event ++
     [Frame.researchComplete research_id model (end_time - start_time)],
   store_research_metrics hist research_id model (end_time - start_time) query
     timestamp pyDefaultSuccess none)

/-- The model registry (`ModelService._initialize_models` in
`services/model_service.py:21-68`): the ids of the available models, in
declaration order. -/
def availableModelIds : List String := ["openai", "anthropic", "kimi"]

/-- The `request.api_keys` lookup: Python dict membership / indexing over the
request's key mapping, embedded as association-list lookup. -/
def lookupKey (api_keys : List (String × String)) (m : String) : Option String :=
  (api_keys.find? (fun p => p.1 == m)).map (·.2)

/-- Python `str.strip()`: drop leading and trailing whitespace (embedded
structurally so that concrete credentials evaluate). -/
def pyStrip (s : String) : String :=
  String.mk ((s.data.dropWhile Char.isWhitespace).reverse.dropWhile
    Char.isWhitespace).reverse

/-- One iteration of the validation loop of `run_multi_model_comparison`
(`main.py:229-239`): the first rejection wins; otherwise reject an unknown
model id, then a missing or blank (whitespace-only) credential. -/
def validateStep (api_keys : List (String × String)) (acc : Option String)
    (m : String) : Option String :=
  match acc with
  | some e => some e
  | none =>
      if !(availableModelIds.contains m) then
        some ("Unsupported model: " ++ m)
      else
        match lookupKey api_keys m with
        | none => some ("Missing API key for model: " ++ m)
        | some k => if pyStrip k == "" then some ("Missing API key for model: " ++ m)
                    else none

/-- The validation loop of `run_multi_model_comparison` (`main.py:229-239`):
returns the first rejection detail, if any. -/
def validateComparison (models : List String) (api_keys : List (String × String)) :
    Option String :=
  models.foldl (validateStep api_keys) none

/-- The accumulator state of `run_model_research`'s event loop
(`main.py:246-295`). -/
structure RMState where
  cur : String
  clock : ℤ
  timings : StageTimings
  sources : Nat
  tools : List String
  report : String
deriving DecidableEq, Repr

/-- The stage-transition tracking of `run_model_research`'s loop body
(`main.py:264-279`): events without a stage are skipped by the
`if event.stage` guard; on a change, the just-ended interval is assigned to
the stage being left and the clock restarts.  Each event comes paired with
the wall-clock instant at which it is observed. -/
def stepStage (st : RMState) (p : StreamingEvent × ℤ) : RMState :=
  match p.1.stage with
  | some s =>
      if s.val ≠ st.cur then
        { st with timings := assignStage st.timings st.cur (p.2 - st.clock)
                  cur := s.val
                  clock := p.2 }
      else st
  | none => st

/-- The `sources_found` accumulation of the loop body (`main.py:281-285`). -/
def stepSources (st : RMState) (p : StreamingEvent × ℤ) : RMState :=
  if p.1.type == "sources_found" then
    match p.1.metadata.sources with
    | some l => { st with sources := st.sources + l.length }
    | none => st
  else st

/-- The `tool_usage` collection of the loop body (`main.py:287-291`). -/
def stepTools (st : RMState) (p : StreamingEvent × ℤ) : RMState :=
  if p.1.type == "tool_usage" then
    match p.1.metadata.tool_name with
    | some tn =>
        if tn ≠ "" && !(st.tools.contains tn) then { st with tools := st.tools ++ [tn] }
        else st
    | none => st
  else st

/-- The content concatenation of the loop body (`main.py:293-295`). -/
def stepReport (st : RMState) (p : StreamingEvent × ℤ) : RMState :=
  if p.1.content ≠ "" then { st with report := st.report ++ p.1.content ++ "\n" }
  else st

/-- One iteration of `run_model_research`'s event loop (`main.py:263-295`),
in the Python statement order. -/
def stepEvent (st : RMState) (p : StreamingEvent × ℤ) : RMState :=
  stepReport (stepTools (stepSources (stepStage st p) p) p) p

/-- Python `len(s.split())`: number of maximal whitespace-free words. -/
def pyWordCount (s : String) : Nat :=
  ((s.split Char.isWhitespace).filter (· ≠ "")).length

/-- The `run_model_research` (`main.py:245-339`) over an already-timed event
stream: fold the loop body over the events, credit the tail interval to the
still-current stage, and assemble the `ComparisonResult`.  `success` is
`True` and `error` is `None` unconditionally here because the loop body is
total and `stream_research` never raises (engine failures arrive as
in-band `error` events) — the Python `except` branch that would set
`success = False` is unreachable for engine faults, which is the subject of
claim C2. -/
def run_model_research (model : String) (timed : List (StreamingEvent × ℤ))
    (start_time end_time : ℤ) : ComparisonResult :=
  let st0 : RMState :=
    { cur := "clarification", clock := start_time, timings := {},
      sources := 0, tools := [], report := "" }
  let st := timed.foldl stepEvent st0
  let timings := assignStage st.timings st.cur (end_time - st.clock)
  { model := model
    duration := end_time - start_time
    stage_timings := timings
    sources_found := st.sources
    word_count := if st.report ≠ "" then pyWordCount st.report else 0
    success := true
    error := none
    report_content := st.report
    supervisor_tools_used := st.tools }

/-- The wall-clock observations of one model's run inside a comparison:
run start, the instants at which its events are observed, and the instant
of the final duration computation. -/
structure RunEnv where
  engine : EngineRun
  start_time : ℤ
  eventTimes : List ℤ
  end_time : ℤ

/-- The `run_multi_model_comparison` (`main.py:218-376`): validate every
requested model before creating the session id or launching any run; then
run one research stream per model (concurrently in Python; `asyncio.gather`
preserves the requested order, and since the per-model coroutine is total
the `return_exceptions` filtering branch never fires) and assemble the
`ComparisonSession` in requested order. -/
def run_multi_model_comparison (query : String) (models : List String)
    (api_keys : List (String × String)) (session_id timestamp : String)
    (env : String → RunEnv) : Except String ComparisonSession :=
  match validateComparison models api_keys with
  | some e => .error e
  | none =>
      .ok { session_id := session_id
            query := query
            timestamp := timestamp
            results := models.map (fun m =>
              let events := stream_research query m ((lookupKey api_keys m).getD "")
                (session_id ++ "_" ++ m) (env m).engine
              run_model_research m (events.zip (env m).eventTimes)
                (env m).start_time (env m).end_time) }

/-- The durable backend (`SupabaseService`) at the interface
`store_comparison_session` uses: whether a client is configured
(`is_available`, `supabase_service.py:263-265`) and whether its write
succeeds. -/
structure Backend where
  available : Bool
  writeOk : Bool
deriving DecidableEq, Repr

/-- The `MetricsCollector.store_comparison_session` (`utils/metrics.py:132-180`),
restricted to its success flag and `research_history` effect: durable
persistence when available and successful, otherwise the in-memory fallback
append (which always succeeds; the per-model aggregate update is read by no
claim). -/
def store_comparison_session (b : Backend) (hist : List HistoryRec)
    (s : ComparisonSession) : Bool × List HistoryRec :=
  if b.available && b.writeOk then (true, hist)
  else (true, hist ++ [.comparison s s.timestamp])

/-- The `item["research_id"]`: key access on a history record — a `KeyError`
(modelled as `.error`) on comparison-session fallback records, which lack
the key. -/
def recResearchId : HistoryRec → Except String String
  | .run research_id _ _ _ _ _ _ => .ok research_id
  | .comparison _ _ => .error "KeyError: research_id"

/-- The list comprehension of `delete_research` (`utils/metrics.py:290-293`):
keep the records whose `research_id` differs, raising on any record without
the key (the whole comprehension — hence the reassignment — is then
abandoned). -/
def filterNonMatching (research_id : String) : List HistoryRec →
    Except String (List HistoryRec)
  | [] => .ok []
  | r :: rest =>
      match recResearchId r with
      | .error e => .error e
      | .ok k =>
          match filterNonMatching research_id rest with
          | .error e => .error e
          | .ok tail => if k == research_id then .ok tail else .ok (r :: tail)

/-- The `MetricsCollector.delete_research` (`utils/metrics.py:277-304`): filter
the history, report whether it shrank; any exception is caught and reported
as `False` with the history unchanged. -/
def delete_research (hist : List HistoryRec) (research_id : String) :
    Bool × List HistoryRec :=
  match filterNonMatching research_id hist with
  | .ok newHist => (decide (newHist.length < hist.length), newHist)
  | .error _ => (false, hist)

/-- The `item["timestamp"]`: present on both record shapes (`utils/metrics.py`
stores it for single runs and comparison fallbacks alike), so sorting never
raises. -/
def HistoryRec.ts : HistoryRec → String
  | .run _ _ _ _ _ timestamp _ => timestamp
  | .comparison _ timestamp => timestamp

/-- Python string comparison on code points, on character lists. -/
def charListLt : List Char → List Char → Bool
  | [], [] => false
  | [], _ :: _ => true
  | _ :: _, [] => false
  | a :: as, b :: bs =>
      if a.toNat < b.toNat then true
      else if b.toNat < a.toNat then false
      else charListLt as bs

/-- Python `a < b` on strings: lexicographic comparison of code points. -/
def strLt (a b : String) : Bool := charListLt a.data b.data

/-- Stable insertion, most-recent-first, of one record into a sorted list:
the embedding of Python `sorted(..., key=lambda x: x["timestamp"],
reverse=True)`, which keeps the original order among equal keys. -/
def insertByTsDesc (r : HistoryRec) : List HistoryRec → List HistoryRec
  | [] => [r]
  | x :: xs => if strLt x.ts r.ts then r :: x :: xs else x :: insertByTsDesc r xs

/-- The sort of `get_research_history` (`utils/metrics.py:103-107`). -/
def sortedHistory (hist : List HistoryRec) : List HistoryRec :=
  hist.foldl (fun acc r => insertByTsDesc r acc) []

/-- The `ResearchHistory` (modelled from the spec for
`models/research_models.py`), as populated by `get_research_history`. -/
structure ResearchHistory where
  research_id : String
  query : String
  model : String
  duration : ℤ
  success : Bool
  timestamp : String
  summary : String
deriving DecidableEq, Repr

/-- The per-item construction of `get_research_history`
(`utils/metrics.py:111-120`): indexing `item["research_id"]` raises on a
comparison-session fallback record; `item.get("summary", ...)` always takes
its default since single-run records store no summary key. -/
def toHistoryItem : HistoryRec → Except String ResearchHistory
  | .run research_id model duration query success timestamp _ =>
      .ok { research_id := research_id, query := query, model := model,
            duration := duration, success := success, timestamp := timestamp,
            summary := "Research using " ++ model }
  | .comparison _ _ => .error "KeyError: research_id"

/-- The response shape of `get_research_history`. -/
structure HistoryResult where
  history : List ResearchHistory
  total_count : Nat
  error : Option String := none
deriving DecidableEq, Repr

/-- The `MetricsCollector.get_research_history` (`utils/metrics.py:91-130`):
sort most-recent-first, build items from the first `limit` records, and on
any exception return the empty history with an `error` field. -/
def get_research_history (hist : List HistoryRec) (limit : Nat) : HistoryResult :=
  match ((sortedHistory hist).take limit).mapM toHistoryItem with
  | .ok items => { history := items, total_count := hist.length }
  | .error e => { history := [], total_count := 0, error := some e }

/-- One transition step of the stage tracker embedded in
`run_model_research` (`main.py:264-279`), on the (stage value, observation
time) pairs of the events that carry a stage: on a stage change, assign the
just-ended interval to the stage being left and restart the clock. -/
def trackStep : StageTimings × String × ℤ → String × ℤ → StageTimings × String × ℤ
  | (st, cur, clock), (s, t) =>
      if s ≠ cur then (assignStage st cur (t - clock), s, t) else (st, cur, clock)

/-- The (stage value, observation time) signals seen by the tracker: events
without a stage are skipped by the `if event.stage` guard. -/
def stageSignals (timed : List (StreamingEvent × ℤ)) : List (String × ℤ) :=
  timed.filterMap (fun p => p.1.stage.map (fun s => (s.val, p.2)))

/-- The final credit of `run_model_research` (`main.py:297-306`): the tail
interval is assigned to the still-current stage. -/
def finalizeTrack (end_time : ℤ) (r : StageTimings × String × ℤ) : StageTimings :=
  assignStage r.1 r.2.1 (end_time - r.2.2)

/-- The tracker of `run_model_research` in isolation: fold the transition
step from the state the Python sets up at run start (`current_stage =
"clarification"`, clock at `start_time`) and credit the tail interval at
the end. -/
def trackerTimings (start_time : ℤ) (sigs : List (String × ℤ)) (end_time : ℤ) :
    StageTimings :=
  finalizeTrack end_time (sigs.foldl trackStep ({}, "clarification", start_time))

/-- The partition of the span `[clock, end_time]` into maximal
constant-stage intervals, given the signals: the reference against which
the tracker's credited times are compared. -/
def intervalsFrom (cur : String) (clock : ℤ) : List (String × ℤ) → ℤ → List (String × ℤ)
  | [], tEnd => [(cur, tEnd - clock)]
  | (s, t) :: rest, tEnd =>
      if s ≠ cur then (cur, t - clock) :: intervalsFrom s t rest tEnd
      else intervalsFrom cur clock rest tEnd

/-- The stage intervals of a whole run, which starts in `clarification`. -/
def runIntervals (start_time : ℤ) (sigs : List (String × ℤ)) (end_time : ℤ) :
    List (String × ℤ) :=
  intervalsFrom "clarification" start_time sigs end_time

/-- The four stages that `run_model_research` credits. -/
def billedStages : List String :=
  ["clarification", "research_brief", "research_execution", "final_report"]

/-- The sum of the four credited components of a `StageTimings`. -/
def sumTimings (st : StageTimings) : ℤ :=
  st.clarification + st.research_brief + st.research_execution + st.final_report

/-- The time a run spends in intervals whose stage is not billed
(`initialization`, `completed`, `error`, or any other unbilled label). -/
def nonBilledTime (start_time : ℤ) (sigs : List (String × ℤ)) (end_time : ℤ) : ℤ :=
  (((runIntervals start_time sigs end_time).filter
      (fun p => !(billedStages.contains p.1))).map (·.2)).sum

/-- The field of a `StageTimings` a stage name is assigned to (zero for
unbilled stages). -/
def getStage (st : StageTimings) (stage : String) : ℤ :=
  if stage == "clarification" then st.clarification
  else if stage == "research_brief" then st.research_brief
  else if stage == "research_execution" then st.research_execution
  else if stage == "final_report" then st.final_report
  else 0

/-- The templated stage-description strings of `_generate_node_content`:
the base string of each recognized branch and the generic default
(`deep_research_service.py:273,288,309,332,353`). -/
def templatedDescription (node_name : String) (node_count : Nat) : String :=
  if node_name == "clarify_with_user" then
    "🔍 Step " ++ toString node_count ++
      ": Analyzing research scope and clarifying requirements"
  else if node_name == "write_research_brief" then
    "📝 Step " ++ toString node_count ++
      ": Creating comprehensive research brief and strategy"
  else if node_name == "research_supervisor" then
    "🔬 Step " ++ toString node_count ++
      ": Conducting deep research using multiple tools and sources"
  else if node_name == "final_report_generation" then
    "📊 Step " ++ toString node_count ++
      ": Generating final research report with findings and analysis"
  else
    "⚙️ Step " ++ toString node_count ++ ": Processing " ++
      pyTitle ((node_name.map (fun c => if c = '_' then ' ' else c)))

/-- The spec's event-sequence invariant, as a predicate on an emitted frame
sequence: exactly one `session_start`, first; exactly one terminal
(`stage_complete` or `error`), last; every frame strictly in between of
kind `stage_update`, `research_finding` or `research_summary`. -/
def specEventInvariant (frames : List Frame) : Prop :=
  frames.countP (fun f => f.kind == "session_start") = 1 ∧
  frames.head?.map Frame.kind = some "session_start" ∧
  frames.countP (fun f => f.kind == "stage_complete" || f.kind == "error") = 1 ∧
  (frames.getLast?.map Frame.kind = some "stage_complete" ∨
   frames.getLast?.map Frame.kind = some "error") ∧
  ∀ f ∈ (frames.drop 1).dropLast,
    f.kind = "stage_update" ∨ f.kind = "research_finding" ∨ f.kind = "research_summary"

/-- Whether a history record is a single-run record (has the `research_id`
key). -/
def HistoryRec.isRun : HistoryRec → Bool
  | .run _ _ _ _ _ _ _ => true
  | .comparison _ _ => false

/-- Whether a history record is a single-run record with the given id. -/
def matchesId (research_id : String) : HistoryRec → Bool
  | .run r _ _ _ _ _ _ => r == research_id
  | .comparison _ _ => false

/-- A session run against the engine of the C1 counterexample: a valid
request whose engine yields no chunks and completes. -/
def demoFrames : List Frame :=
  (generate_research_stream "What is quantum computing?" "openai" "k-123"
    "research_1" "t0" { chunks := [] } 0 5 []).1

/-- An engine chunk used by concrete comparison runs: a
`write_research_brief` node carrying a brief text. -/
def demoChunk : Chunk :=
  { items := [("write_research_brief", { research_brief := some "a demonstration research brief" })] }

/-- The per-model run environments of the C2 scenario: three models, the
second of which (`anthropic`) raises mid-stream after its first chunk. -/
def faultEnv (m : String) : RunEnv :=
  if m == "anthropic" then
    { engine := { chunks := [demoChunk], failure := some "provider auth failure" },
      start_time := 0, eventTimes := [1, 2, 3], end_time := 4 }
  else
    { engine := { chunks := [demoChunk] },
      start_time := 0, eventTimes := [1, 2, 3], end_time := 4 }

/-- The comparison of the C2 scenario: three known models with credentials,
same query, model B faulting mid-stream. -/
def faultComparison : Except String ComparisonSession :=
  run_multi_model_comparison "What is quantum computing?"
    ["openai", "anthropic", "kimi"]
    [("openai", "k-1"), ("anthropic", "k-2"), ("kimi", "k-3")]
    "compare_1" "t0" faultEnv

/-- A timed event carrying only a stage, as observed by the comparison
loop. -/
def stagedEvent (s : ResearchStage) : StreamingEvent :=
  { type := "stage_update", stage := some s }

/-- The timed events of the C3 counterexample: the engine's `stage_start`
signal (stage `initialization`) at time 1, a `clarification` update at
time 3 and the `stage_complete` signal (stage `completed`) at time 5, for a
run starting at time 0 and finalized at time 6. -/
def c3Events : List (StreamingEvent × ℤ) :=
  [(stagedEvent .initialization, 1), (stagedEvent .clarification, 3),
   (stagedEvent .completed, 5)]

/-- Timed events of a run in which no billed stage recurs: the engine's
`stage_start` signal at time 1, a `research_brief` update at time 2 and the
`stage_complete` signal at time 5, for a run over `[0, 6]`. -/
def c3WitnessEvents : List (StreamingEvent × ℤ) :=
  [(stagedEvent .initialization, 1), (stagedEvent .research_brief, 2),
   (stagedEvent .completed, 5)]

/-- An empty comparison session used by concrete metrics-store scenarios. -/
def demoSession : ComparisonSession :=
  { session_id := "compare_1", query := "q", timestamp := "t1", results := [] }

/-- A history holding one comparison-session fallback record and one
single-run record, as produced by a comparison stored in memory followed by
a single run (C7's counterexample state). -/
def mixedHistory : List HistoryRec :=
  [.comparison demoSession "t1", .run "r1" "openai" 1 "q" true "t2" none]

/-- A history of single-run records only (every record has the
`research_id` key). -/
def cleanHistory : List HistoryRec :=
  [.run "r1" "openai" 1 "q" true "t2" none, .run "r2" "kimi" 2 "q2" true "t3" none]

theorem append_left_ne_empty (s t : String) (h : s ≠ "") : s ++ t ≠ "" := by
  intro hc
  have h1 : (s ++ t).length = 0 := by rw [hc]; rfl
  rw [String.length_append] at h1
  have h2 : s.length = 0 := by omega
  apply h
  cases s with
  | mk data =>
    cases data with
    | nil => rfl
    | cons a l => simp [String.length] at h2

theorem branchContent_ne_empty (node_name : String) (nd : NodeData) (n : Nat) :
    branchContent node_name nd n ≠ "" := by
  unfold branchContent
  split_ifs <;>
    first
      | (apply append_left_ne_empty; apply append_left_ne_empty;
         apply append_left_ne_empty; decide)

theorem genericMessageBlock_ne_empty (extracted : String) (nd : NodeData)
    (h : extracted ≠ "") : genericMessageBlock extracted nd ≠ "" := by
  unfold genericMessageBlock
  split
  · split
    · split
      · split
        · exact append_left_ne_empty _ _ (append_left_ne_empty _ _ h)
        · exact h
      · exact h
    · exact h
  · exact h

theorem generateNodeContentOk_ne_empty (node_name : String) (nd : NodeData) (n : Nat) :
    generateNodeContentOk node_name nd n ≠ "" :=
  genericMessageBlock_ne_empty _ _ (branchContent_ne_empty node_name nd n)

theorem generate_node_content_ne_empty (node_name : String) (nd : NodeData) (n : Nat) :
    generate_node_content node_name nd n ≠ "" := by
  unfold generate_node_content
  split
  · apply append_left_ne_empty; apply append_left_ne_empty; apply append_left_ne_empty; decide
  · exact generateNodeContentOk_ne_empty node_name nd n

theorem clarifyExtras_empty : clarifyExtras NodeData.empty = "" := rfl

theorem briefExtras_empty : briefExtras NodeData.empty = "" := rfl

theorem supervisorExtras_empty : supervisorExtras NodeData.empty = "" := rfl

theorem reportExtras_empty : reportExtras NodeData.empty = "" := rfl

theorem branchContent_empty_payload (node_name : String) (n : Nat) :
    branchContent node_name NodeData.empty n = templatedDescription node_name n := by
  unfold branchContent templatedDescription
  split_ifs <;>
    simp only [clarifyExtras_empty, briefExtras_empty, supervisorExtras_empty,
      reportExtras_empty, String.append_empty]

theorem genericMessageBlock_empty_payload (extracted : String) :
    genericMessageBlock extracted NodeData.empty = extracted := by
  unfold genericMessageBlock
  split <;> rfl

/-- C4: translating a workflow node into an event always produces a
non-empty content string; a payload with no recognizable fields yields the
templated stage-description string, and a payload whose probing raises
still yields the `"⚙️ Step N: Processing <node>"` fallback — event
production is never aborted. -/
theorem translate_never_fails (node_name : String) (nd : NodeData)
    (research_id model : String) (n : Nat) :
    (process_workflow_node node_name nd research_id model n).content ≠ "" ∧
    generate_node_content node_name NodeData.empty n = templatedDescription node_name n ∧
    generate_node_content node_name { raising := true } n =
      "⚙️ Step " ++ toString n ++ ": Processing " ++ node_name := by
  refine ⟨generate_node_content_ne_empty node_name nd n, ?_, rfl⟩
  show generateNodeContentOk node_name NodeData.empty n = templatedDescription node_name n
  unfold generateNodeContentOk
  rw [genericMessageBlock_empty_payload, branchContent_empty_payload]

theorem mem_supervisor_data_type (nd : NodeData) (research_id model : String)
    (e : StreamingEvent) (he : e ∈ process_research_supervisor_data nd research_id model) :
    e.type = "research_finding" ∨ e.type = "research_summary" := by
  unfold process_research_supervisor_data at he
  split at he
  · simp at he
  · rw [List.mem_append] at he
    rcases he with he | he
    · left
      split at he
      · rw [List.mem_filterMap] at he
        obtain ⟨a, _, ha⟩ := he
        split at ha
        · cases ha; rfl
        · cases ha
      · simp at he
    · right
      split at he
      · split at he
        · rw [List.mem_singleton] at he
          subst he; rfl
        · simp at he
      · simp at he

theorem mem_processChunkItems_type (research_id model : String) (n : Nat)
    (items : List (String × NodeData)) (e : StreamingEvent)
    (he : e ∈ processChunkItems research_id model n items) :
    e.type = "stage_update" ∨ e.type = "research_finding" ∨ e.type = "research_summary" := by
  induction items with
  | nil => simp [processChunkItems] at he
  | cons p rest ih =>
      unfold processChunkItems at he
      rw [List.mem_append, List.mem_cons] at he
      rcases he with (he | he) | he
      · subst he; left; rfl
      · split at he
        · right; exact mem_supervisor_data_type _ _ _ _ he
        · simp at he
      · exact ih he

theorem mem_processChunks_type (research_id model : String) (chunks : List Chunk)
    (n : Nat) (e : StreamingEvent)
    (he : e ∈ processChunks research_id model chunks n) :
    e.type = "stage_update" ∨ e.type = "research_finding" ∨ e.type = "research_summary" := by
  induction chunks generalizing n with
  | nil => simp [processChunks] at he
  | cons c rest ih =>
      unfold processChunks at he
      rw [List.mem_append] at he
      rcases he with he | he
      · exact mem_processChunkItems_type _ _ _ _ _ he
      · exact ih _ he

theorem stream_research_decomposition (query model api_key research_id : String)
    (eng : EngineRun) :
    stream_research query model api_key research_id eng =
      stageStartEvent query research_id model ::
        processChunks research_id model eng.chunks 0 ++
        [match eng.failure with
         | none => stageCompleteEvent research_id model eng.chunks.length
         | some msg => streamErrorEvent research_id model msg (lastStage eng.chunks)] := by
  unfold stream_research
  cases eng.failure <;> rfl

theorem stream_terminal_type (research_id model : String) (eng : EngineRun) :
    (match eng.failure with
     | none => stageCompleteEvent research_id model eng.chunks.length
     | some msg => streamErrorEvent research_id model msg (lastStage eng.chunks)).type =
      "stage_complete" ∨
    (match eng.failure with
     | none => stageCompleteEvent research_id model eng.chunks.length
     | some msg => streamErrorEvent research_id model msg (lastStage eng.chunks)).type =
      "error" := by
  cases eng.failure
  · left; rfl
  · right; rfl

/-- C1 counterexample: on a valid request whose engine yields no updates
and completes, the emitted frame sequence is `session_start`,
`stage_start`, `stage_complete`, `research_complete` — the second frame is
not one of the three permitted intermediate kinds and the final frame is
the `research_complete` frame, not the terminal `stage_complete`, so the
claimed invariant fails. -/
theorem spec_event_invariant_fails : ¬ specEventInvariant demoFrames := by
  intro h
  have hlast := h.2.2.2.1
  revert hlast
  decide

theorem countP_head_one (P : Frame → Bool) (x y z w : Frame) (mids : List Frame)
    (hx : P x = true) (hy : P y = false) (hm : ∀ f ∈ mids, P f = false)
    (hz : P z = false) (hw : P w = false) :
    (x :: y :: mids ++ [z, w]).countP P = 1 := by
  simp only [List.countP_cons, List.countP_append]
  rw [List.countP_eq_zero.mpr (by intro f hf; rw [hm f hf]; exact Bool.false_ne_true)]
  simp [List.countP_cons, hx, hy, hz, hw]

theorem countP_fourth_one (P : Frame → Bool) (x y z w : Frame) (mids : List Frame)
    (hx : P x = false) (hy : P y = false) (hm : ∀ f ∈ mids, P f = false)
    (hz : P z = true) (hw : P w = false) :
    (x :: y :: mids ++ [z, w]).countP P = 1 := by
  simp only [List.countP_cons, List.countP_append]
  rw [List.countP_eq_zero.mpr (by intro f hf; rw [hm f hf]; exact Bool.false_ne_true)]
  simp [List.countP_cons, hx, hy, hz, hw]

/-- C1 as amended: the frame sequence is exactly one `session_start`, then
the service's `stage_start` event, then intermediate events all of kind
`stage_update`/`research_finding`/`research_summary`, then exactly one
terminal service event (`stage_complete` xor `error`), then exactly one
trailing `research_complete` frame — so the terminal service event is
second-to-last rather than last. -/
theorem session_frame_structure (query model api_key research_id timestamp : String)
    (eng : EngineRun) (start_time end_time : ℤ) (hist : List HistoryRec) :
    ∃ (mids : List StreamingEvent) (term : StreamingEvent),
      (generate_research_stream query model api_key research_id timestamp eng
          start_time end_time hist).1 =
        Frame.sessionStart research_id model query ::
          Frame.event (stageStartEvent query research_id model) ::
          mids.map Frame.event ++
          [Frame.event term, Frame.researchComplete research_id model (end_time - start_time)] ∧
      (term.type = "stage_complete" ∨ term.type = "error") ∧
      ¬ (term.type = "stage_complete" ∧ term.type = "error") ∧
      (∀ e ∈ mids, e.type = "stage_update" ∨ e.type = "research_finding" ∨
        e.type = "research_summary") ∧
      (generate_research_stream query model api_key research_id timestamp eng
          start_time end_time hist).1.countP (fun f => f.kind == "session_start") = 1 ∧
      (generate_research_stream query model api_key research_id timestamp eng
          start_time end_time hist).1.countP
        (fun f => f.kind == "stage_complete" || f.kind == "error") = 1 := by
  have hterm := stream_terminal_type research_id model eng
  have hfr : (generate_research_stream query model api_key research_id timestamp eng
      start_time end_time hist).1 =
      Frame.sessionStart research_id model query ::
        Frame.event (stageStartEvent query research_id model) ::
        (processChunks research_id model eng.chunks 0).map Frame.event ++
        [Frame.event (match eng.failure with
          | none => stageCompleteEvent research_id model eng.chunks.length
          | some msg => streamErrorEvent research_id model msg (lastStage eng.chunks)),
         Frame.researchComplete research_id model (end_time - start_time)] := by
    show Frame.sessionStart research_id model query ::
        (stream_research query model api_key research_id eng).map Frame.event ++ _ = _
    rw [stream_research_decomposition]
    simp
  refine ⟨processChunks research_id model eng.chunks 0, _, hfr, hterm, ?_, ?_, ?_, ?_⟩
  · intro hc
    rw [hc.1] at hc
    exact absurd hc.2 (by decide)
  · exact fun e he => mem_processChunks_type _ _ _ _ _ he
  · rw [hfr]
    apply countP_head_one _ _ _ _ _ _ rfl rfl _ _ rfl
    · intro f hf
      rw [List.mem_map] at hf
      obtain ⟨e, he, hfe⟩ := hf
      subst hfe
      show (e.type == "session_start") = false
      rcases mem_processChunks_type _ _ _ _ _ he with h | h | h <;> rw [h] <;> rfl
    · show ((match eng.failure with
        | none => stageCompleteEvent research_id model eng.chunks.length
        | some msg => streamErrorEvent research_id model msg (lastStage eng.chunks)).type ==
          "session_start") = false
      rcases hterm with h | h <;> rw [h] <;> rfl
  · rw [hfr]
    apply countP_fourth_one _ _ _ _ _ _ rfl rfl _ _ rfl
    · intro f hf
      rw [List.mem_map] at hf
      obtain ⟨e, he, hfe⟩ := hf
      subst hfe
      show (e.type == "stage_complete" || e.type == "error") = false
      rcases mem_processChunks_type _ _ _ _ _ he with h | h | h <;> rw [h] <;> rfl
    · show ((match eng.failure with
        | none => stageCompleteEvent research_id model eng.chunks.length
        | some msg => streamErrorEvent research_id model msg (lastStage eng.chunks)).type ==
          "stage_complete" ||
        (match eng.failure with
        | none => stageCompleteEvent research_id model eng.chunks.length
        | some msg => streamErrorEvent research_id model msg (lastStage eng.chunks)).type ==
          "error") = true
      rcases hterm with h | h <;> rw [h] <;> rfl

theorem stream_research_getLast_error (query model api_key research_id : String)
    (chunks : List Chunk) (msg : String) :
    (stream_research query model api_key research_id
        { chunks := chunks, failure := some msg }).getLast? =
      some (streamErrorEvent research_id model msg (lastStage chunks)) := by
  show (stageStartEvent query research_id model ::
      processChunks research_id model chunks 0 ++
      [streamErrorEvent research_id model msg (lastStage chunks)]).getLast? = _
  rw [List.getLast?_concat]

/-- C9: when the engine raises mid-stream, the service stream ends with an
in-band `error` event, yet the SSE generator still emits the
`research_complete` frame afterwards and records the run's metrics with
`success = true` (the call passes no `success` argument, so the parameter's
default `True` applies). -/
theorem error_run_still_completes_and_records_success
    (query model api_key research_id timestamp : String) (chunks : List Chunk)
    (msg : String) (start_time end_time : ℤ) (hist : List HistoryRec) :
    (generate_research_stream query model api_key research_id timestamp
        { chunks := chunks, failure := some msg } start_time end_time hist).1 =
      Frame.sessionStart research_id model query ::
        (stream_research query model api_key research_id
            { chunks := chunks, failure := some msg }).map Frame.event ++
        [Frame.researchComplete research_id model (end_time - start_time)] ∧
    (stream_research query model api_key research_id
        { chunks := chunks, failure := some msg }).getLast? =
      some (streamErrorEvent research_id model msg (lastStage chunks)) ∧
    (streamErrorEvent research_id model msg (lastStage chunks)).type = "error" ∧
    (generate_research_stream query model api_key research_id timestamp
        { chunks := chunks, failure := some msg } start_time end_time hist).2 =
      hist ++ [HistoryRec.run research_id model (end_time - start_time) query
        true timestamp none] :=
  ⟨rfl, stream_research_getLast_error query model api_key research_id chunks msg,
   rfl, rfl⟩

theorem mem_stream_research_type (query model api_key research_id : String)
    (eng : EngineRun) (e : StreamingEvent)
    (he : e ∈ stream_research query model api_key research_id eng) :
    e.type = "stage_start" ∨ e.type = "stage_update" ∨ e.type = "research_finding" ∨
    e.type = "research_summary" ∨ e.type = "stage_complete" ∨ e.type = "error" := by
  rw [stream_research_decomposition] at he
  rw [List.mem_append, List.mem_cons] at he
  rcases he with (he | he) | he
  · left; rw [he]; rfl
  · rcases mem_processChunks_type _ _ _ _ _ he with h | h | h
    · right; left; exact h
    · right; right; left; exact h
    · right; right; right; left; exact h
  · rw [List.mem_singleton] at he
    subst he
    rcases stream_terminal_type research_id model eng with h | h
    · right; right; right; right; left; exact h
    · right; right; right; right; right; exact h

theorem stepStage_sources (st : RMState) (p : StreamingEvent × ℤ) :
    (stepStage st p).sources = st.sources := by
  unfold stepStage
  split
  · split <;> rfl
  · rfl

theorem stepStage_tools (st : RMState) (p : StreamingEvent × ℤ) :
    (stepStage st p).tools = st.tools := by
  unfold stepStage
  split
  · split <;> rfl
  · rfl

theorem stepSources_tools (st : RMState) (p : StreamingEvent × ℤ) :
    (stepSources st p).tools = st.tools := by
  unfold stepSources
  split
  · split <;> rfl
  · rfl

theorem stepSources_sources_of_ne (st : RMState) (p : StreamingEvent × ℤ)
    (h : p.1.type ≠ "sources_found") : (stepSources st p).sources = st.sources := by
  unfold stepSources
  rw [if_neg (by simpa using h)]

theorem stepTools_sources (st : RMState) (p : StreamingEvent × ℤ) :
    (stepTools st p).sources = st.sources := by
  unfold stepTools
  split
  · split
    · split <;> rfl
    · rfl
  · rfl

theorem stepTools_tools_of_ne (st : RMState) (p : StreamingEvent × ℤ)
    (h : p.1.type ≠ "tool_usage") : (stepTools st p).tools = st.tools := by
  unfold stepTools
  rw [if_neg (by simpa using h)]

theorem stepReport_sources (st : RMState) (p : StreamingEvent × ℤ) :
    (stepReport st p).sources = st.sources := by
  unfold stepReport
  split <;> rfl

theorem stepReport_tools (st : RMState) (p : StreamingEvent × ℤ) :
    (stepReport st p).tools = st.tools := by
  unfold stepReport
  split <;> rfl

theorem stepEvent_sources_tools (st : RMState) (p : StreamingEvent × ℤ)
    (h1 : p.1.type ≠ "sources_found") (h2 : p.1.type ≠ "tool_usage") :
    (stepEvent st p).sources = st.sources ∧ (stepEvent st p).tools = st.tools := by
  unfold stepEvent
  constructor
  · rw [stepReport_sources, stepTools_sources, stepSources_sources_of_ne _ _ h1,
      stepStage_sources]
  · rw [stepReport_tools, stepTools_tools_of_ne _ _ h2, stepSources_tools,
      stepStage_tools]

theorem foldl_stepEvent_no_meta (timed : List (StreamingEvent × ℤ))
    (h : ∀ p ∈ timed, p.1.type ≠ "sources_found" ∧ p.1.type ≠ "tool_usage") :
    ∀ st : RMState, (timed.foldl stepEvent st).sources = st.sources ∧
      (timed.foldl stepEvent st).tools = st.tools := by
  induction timed with
  | nil => intro st; exact ⟨rfl, rfl⟩
  | cons p rest ih =>
      intro st
      have hp := h p (List.mem_cons_self _ _)
      have hstep := stepEvent_sources_tools st p hp.1 hp.2
      have hrest := ih (fun q hq => h q (List.mem_cons_of_mem _ hq)) (stepEvent st p)
      exact ⟨by rw [List.foldl_cons, hrest.1, hstep.1],
             by rw [List.foldl_cons, hrest.2, hstep.2]⟩

/-- C8: a comparison run that consumes the research service's stream always
reports zero sources found and no supervisor tools: the accumulation only
reads events of type `sources_found` or `tool_usage`, and the service never
emits either type. -/
theorem comparison_run_zero_sources_no_tools
    (query model api_key research_id : String) (eng : EngineRun)
    (times : List ℤ) (start_time end_time : ℤ) :
    (run_model_research model
        ((stream_research query model api_key research_id eng).zip times)
        start_time end_time).sources_found = 0 ∧
    (run_model_research model
        ((stream_research query model api_key research_id eng).zip times)
        start_time end_time).supervisor_tools_used = [] := by
  have hall : ∀ p ∈ (stream_research query model api_key research_id eng).zip times,
      p.1.type ≠ "sources_found" ∧ p.1.type ≠ "tool_usage" := by
    intro p hp
    have hmem : p.1 ∈ stream_research query model api_key research_id eng :=
      (List.of_mem_zip hp).1
    rcases mem_stream_research_type _ _ _ _ _ _ hmem with h | h | h | h | h | h <;>
      rw [h] <;> exact ⟨by decide, by decide⟩
  have hfold := foldl_stepEvent_no_meta _ hall
    { cur := "clarification", clock := start_time, timings := {},
      sources := 0, tools := [], report := "" }
  exact ⟨hfold.1, hfold.2⟩

/-- C2 evidence: in the three-model comparison where `anthropic` raises
mid-stream, the embedded orchestrator returns three results in requested
order, but the faulting model's entry is `success = true` with no error —
the service converts the engine exception into an in-band `error` event and
ends its stream normally, so `run_model_research`'s `except` branch (the
only place `success = False` and the error text are set) never runs. -/
theorem comparison_fault_not_marked_failed :
    faultComparison.toOption.map
        (fun s => (s.results.map (fun r => r.model),
                   s.results.map (fun r => r.success),
                   s.results.map (fun r => r.error))) =
      some (["openai", "anthropic", "kimi"], [true, true, true],
            ([none, none, none] : List (Option String))) ∧
    (faultEnv "anthropic").engine.failure = some "provider auth failure" := by
  exact ⟨by decide, rfl⟩

theorem validateFoldl_some (api_keys : List (String × String)) (l : List String)
    (e : String) : l.foldl (validateStep api_keys) (some e) = some e := by
  induction l with
  | nil => rfl
  | cons a t ih => exact ih

theorem validateStep_none_of_good (api_keys : List (String × String)) (m : String)
    (h1 : availableModelIds.contains m = true)
    (h2 : pyStrip ((lookupKey api_keys m).getD "") ≠ "") :
    validateStep api_keys none m = none := by
  unfold validateStep
  rw [if_neg (by rw [h1]; decide)]
  cases hk : lookupKey api_keys m with
  | none => rw [hk] at h2; exact absurd rfl h2
  | some k =>
      rw [hk] at h2
      simp only [Option.getD_some] at h2
      simp [h2]

theorem validateStep_some_of_bad (api_keys : List (String × String)) (m : String)
    (h : m ∉ availableModelIds ∨ pyStrip ((lookupKey api_keys m).getD "") = "") :
    ∃ e, validateStep api_keys none m = some e := by
  unfold validateStep
  by_cases hc : availableModelIds.contains m = true
  · rw [if_neg (by rw [hc]; decide)]
    have h2 : pyStrip ((lookupKey api_keys m).getD "") = "" := by
      rcases h with h | h
      · exact absurd (by simpa using hc) h
      · exact h
    cases hk : lookupKey api_keys m with
    | none => exact ⟨_, rfl⟩
    | some k =>
        rw [hk] at h2
        simp only [Option.getD_some] at h2
        simp [h2]
  · rw [if_pos (by simp only [Bool.not_eq_true] at hc; rw [hc]; decide)]
    exact ⟨_, rfl⟩

theorem validateComparison_isSome (models : List String)
    (api_keys : List (String × String))
    (h : ∃ m ∈ models, m ∉ availableModelIds ∨
      pyStrip ((lookupKey api_keys m).getD "") = "") :
    ∃ e, validateComparison models api_keys = some e := by
  induction models with
  | nil => obtain ⟨m, hm, _⟩ := h; simp at hm
  | cons a t ih =>
      unfold validateComparison
      rw [List.foldl_cons]
      by_cases hbad : a ∉ availableModelIds ∨ pyStrip ((lookupKey api_keys a).getD "") = ""
      · obtain ⟨e, he⟩ := validateStep_some_of_bad api_keys a hbad
        rw [he, validateFoldl_some]
        exact ⟨e, rfl⟩
      · push_neg at hbad
        rw [validateStep_none_of_good api_keys a (by simpa using hbad.1) hbad.2]

        obtain ⟨m, hm, hb⟩ := h
        rcases List.mem_cons.mp hm with rfl | hm'
        · rcases hb with hb | hb
          · exact absurd hbad.1 hb
          · exact absurd hb hbad.2
        · exact ih ⟨m, hm', hb⟩

/-- C5: a comparison request containing an unknown model id or a model with
a missing or blank credential is rejected as a whole: the result is a
validation error, produced before any `ComparisonSession` exists, and it
does not depend on the engines at all — no per-model run is launched. -/
theorem invalid_comparison_rejected_before_any_run
    (query : String) (models : List String) (api_keys : List (String × String))
    (session_id timestamp : String) (env : String → RunEnv)
    (h : ∃ m ∈ models, m ∉ availableModelIds ∨
      pyStrip ((lookupKey api_keys m).getD "") = "") :
    (∃ e, run_multi_model_comparison query models api_keys session_id timestamp env =
      .error e) ∧
    ∀ env' : String → RunEnv,
      run_multi_model_comparison query models api_keys session_id timestamp env' =
        run_multi_model_comparison query models api_keys session_id timestamp env := by
  obtain ⟨e, he⟩ := validateComparison_isSome models api_keys h
  constructor
  · refine ⟨e, ?_⟩
    unfold run_multi_model_comparison
    rw [he]
  · intro env'
    unfold run_multi_model_comparison
    rw [he]

/-- Witness for C5: a concrete request naming the unknown model `bogus` is
rejected with a validation error, independent of the engines. -/
theorem invalid_comparison_rejected_witness :
    (∃ m ∈ (["openai", "bogus"] : List String), m ∉ availableModelIds ∨
      pyStrip ((lookupKey [("openai", "key-1")] m).getD "") = "") ∧
    ((∃ e, run_multi_model_comparison "q" ["openai", "bogus"] [("openai", "key-1")]
        "compare_1" "t0" faultEnv = .error e) ∧
     ∀ env' : String → RunEnv,
       run_multi_model_comparison "q" ["openai", "bogus"] [("openai", "key-1")]
           "compare_1" "t0" env' =
         run_multi_model_comparison "q" ["openai", "bogus"] [("openai", "key-1")]
           "compare_1" "t0" faultEnv) :=
  ⟨by decide,
   invalid_comparison_rejected_before_any_run "q" ["openai", "bogus"]
     [("openai", "key-1")] "compare_1" "t0" faultEnv (by decide)⟩

/-- C6: recording a comparison session logically succeeds even when the
durable backend is unavailable or its write fails: the store falls back to
the in-memory record and still returns success, so the caller is never
blocked by a storage outage. -/
theorem store_comparison_succeeds_despite_backend
    (b : Backend) (hist : List HistoryRec) (s : ComparisonSession)
    (h : b.available = false ∨ b.writeOk = false) :
    (store_comparison_session b hist s).1 = true ∧
    (store_comparison_session b hist s).2 =
      hist ++ [HistoryRec.comparison s s.timestamp] := by
  unfold store_comparison_session
  rcases h with h | h <;> rw [h] <;> simp

/-- Witness for C6: an unavailable backend still yields a successful store
with the in-memory fallback record. -/
theorem store_comparison_succeeds_witness :
    ((Backend.mk false false).available = false ∨
      (Backend.mk false false).writeOk = false) ∧
    ((store_comparison_session ⟨false, false⟩ [] demoSession).1 = true ∧
     (store_comparison_session ⟨false, false⟩ [] demoSession).2 =
       [] ++ [HistoryRec.comparison demoSession demoSession.timestamp]) :=
  ⟨Or.inl rfl,
   store_comparison_succeeds_despite_backend ⟨false, false⟩ [] demoSession (Or.inl rfl)⟩

/-- C7 counterexample: on a history holding a comparison-session fallback
record next to the single-run record `r1`, deleting `r1` returns `false`
although a matching record exists (the key access on the comparison record
raises and is caught), and the record is not removed — so calling delete
twice with the existing id returns `false` then `false`, not `true` then
`false`. -/
theorem delete_twice_counterexample :
    mixedHistory.any (matchesId "r1") = true ∧
    (delete_research mixedHistory "r1").1 = false ∧
    (delete_research mixedHistory "r1").2 = mixedHistory ∧
    (delete_research (delete_research mixedHistory "r1").2 "r1").1 = false := by
  decide

theorem filterNonMatching_clean (research_id : String) (hist : List HistoryRec)
    (h : ∀ r ∈ hist, r.isRun = true) :
    filterNonMatching research_id hist =
      .ok (hist.filter (fun r => !(matchesId research_id r))) := by
  induction hist with
  | nil => rfl
  | cons r rest ih =>
      have hr := h r (List.mem_cons_self _ _)
      cases r with
      | comparison d t => simp [HistoryRec.isRun] at hr
      | run rid model dur q succ ts err =>
          unfold filterNonMatching
          rw [ih (fun x hx => h x (List.mem_cons_of_mem _ hx))]
          by_cases hid : (rid == research_id) = true
          · simp [recResearchId, hid, List.filter_cons, matchesId]
          · simp only [Bool.not_eq_true] at hid
            simp [recResearchId, hid, List.filter_cons, matchesId]

theorem mem_of_mem_filter_clean {hist : List HistoryRec} {p : HistoryRec → Bool}
    (h : ∀ r ∈ hist, r.isRun = true) : ∀ r ∈ hist.filter p, r.isRun = true :=
  fun r hr => h r (List.mem_of_mem_filter hr)

/-- C7 as amended: provided the stored history holds only single-run
records (no comparison-session fallback record), `delete_research` returns
`true` exactly when a matching record existed, removes exactly the matching
records, never raises, and a second call with the same id returns `false`.
-/
theorem delete_research_clean (hist : List HistoryRec) (research_id : String)
    (h : ∀ r ∈ hist, r.isRun = true) :
    ((delete_research hist research_id).1 = true ↔
      hist.any (matchesId research_id) = true) ∧
    (delete_research hist research_id).2 =
      hist.filter (fun r => !(matchesId research_id r)) ∧
    (delete_research (delete_research hist research_id).2 research_id).1 = false := by
  have hf := filterNonMatching_clean research_id hist h
  have h2 : (delete_research hist research_id).2 =
      hist.filter (fun r => !(matchesId research_id r)) := by
    unfold delete_research
    rw [hf]
  have h1 : (delete_research hist research_id).1 =
      decide ((hist.filter (fun r => !(matchesId research_id r))).length < hist.length) := by
    unfold delete_research
    rw [hf]
  refine ⟨?_, h2, ?_⟩
  · rw [h1]
    simp only [decide_eq_true_eq, List.length_filter_lt_length_iff_exists,
      List.any_eq_true, Bool.not_eq_true]
    constructor <;> rintro ⟨x, hx, hb⟩ <;> exact ⟨x, hx, by simpa using hb⟩
  · rw [h2]
    have hclean := mem_of_mem_filter_clean (p := fun r => !(matchesId research_id r)) h
    have hf2 := filterNonMatching_clean research_id _ hclean
    unfold delete_research
    rw [hf2]
    rw [List.filter_eq_self.mpr (fun a ha => (List.mem_filter.mp ha).2)]
    simp

/-- Witness for C7's amended claim on a concrete clean history. -/
theorem delete_research_clean_witness :
    (∀ r ∈ cleanHistory, r.isRun = true) ∧
    (((delete_research cleanHistory "r1").1 = true ↔
        cleanHistory.any (matchesId "r1") = true) ∧
     (delete_research cleanHistory "r1").2 =
       cleanHistory.filter (fun r => !(matchesId "r1" r)) ∧
     (delete_research (delete_research cleanHistory "r1").2 "r1").1 = false) :=
  ⟨by decide, delete_research_clean cleanHistory "r1" (by decide)⟩

theorem filterNonMatching_error_of_comparison (research_id : String)
    (hist : List HistoryRec) (h : ∃ r ∈ hist, r.isRun = false) :
    ∃ e, filterNonMatching research_id hist = .error e := by
  induction hist with
  | nil => obtain ⟨r, hr, _⟩ := h; simp at hr
  | cons r rest ih =>
      cases r with
      | comparison d t => exact ⟨_, rfl⟩
      | run rid model dur q succ ts err =>
          obtain ⟨x, hx, hxf⟩ := h
          rcases List.mem_cons.mp hx with rfl | hx'
          · simp [HistoryRec.isRun] at hxf
          · obtain ⟨e, he⟩ := ih ⟨x, hx', hxf⟩
            refine ⟨e, ?_⟩
            show (match filterNonMatching research_id rest with
              | Except.error e => Except.error e
              | Except.ok tail =>
                  if (rid == research_id) = true then Except.ok tail
                  else Except.ok (HistoryRec.run rid model dur q succ ts err :: tail)) =
              Except.error e
            rw [he]

theorem delete_research_false_of_comparison (hist : List HistoryRec)
    (research_id : String) (h : ∃ r ∈ hist, r.isRun = false) :
    delete_research hist research_id = (false, hist) := by
  obtain ⟨e, he⟩ := filterNonMatching_error_of_comparison research_id hist h
  unfold delete_research
  rw [he]

theorem mapM_toHistoryItem_error (l : List HistoryRec)
    (h : ∃ r ∈ l, r.isRun = false) :
    ∃ e, l.mapM toHistoryItem = .error e := by
  induction l with
  | nil => obtain ⟨r, hr, _⟩ := h; simp at hr
  | cons r rest ih =>
      cases r with
      | comparison d t => exact ⟨_, by rw [List.mapM_cons]; rfl⟩
      | run rid model dur q succ ts err =>
          obtain ⟨x, hx, hxf⟩ := h
          rcases List.mem_cons.mp hx with rfl | hx'
          · simp [HistoryRec.isRun] at hxf
          · obtain ⟨e, he⟩ := ih ⟨x, hx', hxf⟩
            exact ⟨e, by rw [List.mapM_cons, he]; rfl⟩

theorem get_research_history_error (hist : List HistoryRec) (limit : Nat)
    (h : ∃ r ∈ (sortedHistory hist).take limit, r.isRun = false) :
    ∃ e, get_research_history hist limit =
      { history := [], total_count := 0, error := some e } := by
  obtain ⟨e, he⟩ := mapM_toHistoryItem_error _ h
  exact ⟨e, by unfold get_research_history; rw [he]⟩

/-- C10: once a comparison session has been stored through the in-memory
fallback (a record without the `research_id` key), `delete_research`
returns `false` for every session id and removes nothing — including ids of
previously stored single runs — and `get_research_history` returns the
empty history with an `error` field whenever the comparison record falls
within the requested limit; in both cases the key access raises and is
caught. -/
theorem comparison_record_poisons_store (b : Backend) (hist0 : List HistoryRec)
    (s : ComparisonSession) (research_id : String) (limit : Nat)
    (hb : b.available = false)
    (hlim : ∃ r ∈ (sortedHistory ((store_comparison_session b hist0 s).2)).take limit,
      r.isRun = false) :
    delete_research ((store_comparison_session b hist0 s).2) research_id =
      (false, (store_comparison_session b hist0 s).2) ∧
    ∃ e, get_research_history ((store_comparison_session b hist0 s).2) limit =
      { history := [], total_count := 0, error := some e } := by
  have hmem : ∃ r ∈ (store_comparison_session b hist0 s).2, r.isRun = false := by
    refine ⟨HistoryRec.comparison s s.timestamp, ?_, rfl⟩
    unfold store_comparison_session
    rw [hb]
    simp
  exact ⟨delete_research_false_of_comparison _ _ hmem,
         get_research_history_error _ _ hlim⟩

/-- Witness for C10 at a concrete state: a single run `r1` followed by a
fallback-stored comparison session. -/
theorem comparison_record_poisons_store_witness :
    ((Backend.mk false false).available = false) ∧
    (∃ r ∈ (sortedHistory ((store_comparison_session ⟨false, false⟩
        [HistoryRec.run "r1" "openai" 1 "q" true "t2" none] demoSession).2)).take 10,
      r.isRun = false) ∧
    (delete_research ((store_comparison_session ⟨false, false⟩
        [HistoryRec.run "r1" "openai" 1 "q" true "t2" none] demoSession).2) "r1" =
      (false, (store_comparison_session ⟨false, false⟩
        [HistoryRec.run "r1" "openai" 1 "q" true "t2" none] demoSession).2) ∧
     ∃ e, get_research_history ((store_comparison_session ⟨false, false⟩
        [HistoryRec.run "r1" "openai" 1 "q" true "t2" none] demoSession).2) 10 =
      { history := [], total_count := 0, error := some e }) :=
  ⟨rfl, by decide,
   comparison_record_poisons_store ⟨false, false⟩
     [HistoryRec.run "r1" "openai" 1 "q" true "t2" none] demoSession "r1" 10 rfl
     (by decide)⟩

/-- C3 counterexample: the tracker starts billing `clarification` at run
start (before any signal), drops the interval spent in `initialization`
(between the `stage_start` signal and the first stage update) and the tail
spent in `completed`, and overwrites rather than accumulates on revisit —
so with signals `initialization@1`, `clarification@3`, `completed@5` over a
run `[0, 6]`, the four credited components sum to 2, not to the
first-signal-to-finalization span `6 - 1 = 5`. -/
theorem tracker_sum_counterexample :
    (stageSignals c3Events).head? = some ("initialization", 1) ∧
    sumTimings (run_model_research "openai" c3Events 0 6).stage_timings = 2 ∧
    sumTimings (run_model_research "openai" c3Events 0 6).stage_timings ≠
      (6 : ℤ) - 1 := by
  refine ⟨rfl, by decide, by decide⟩

theorem stepSources_timings (st : RMState) (p : StreamingEvent × ℤ) :
    (stepSources st p).timings = st.timings := by
  unfold stepSources
  split
  · split <;> rfl
  · rfl

theorem stepSources_cur (st : RMState) (p : StreamingEvent × ℤ) :
    (stepSources st p).cur = st.cur := by
  unfold stepSources
  split
  · split <;> rfl
  · rfl

theorem stepSources_clock (st : RMState) (p : StreamingEvent × ℤ) :
    (stepSources st p).clock = st.clock := by
  unfold stepSources
  split
  · split <;> rfl
  · rfl

theorem stepTools_timings (st : RMState) (p : StreamingEvent × ℤ) :
    (stepTools st p).timings = st.timings := by
  unfold stepTools
  split
  · split
    · split <;> rfl
    · rfl
  · rfl

theorem stepTools_cur (st : RMState) (p : StreamingEvent × ℤ) :
    (stepTools st p).cur = st.cur := by
  unfold stepTools
  split
  · split
    · split <;> rfl
    · rfl
  · rfl

theorem stepTools_clock (st : RMState) (p : StreamingEvent × ℤ) :
    (stepTools st p).clock = st.clock := by
  unfold stepTools
  split
  · split
    · split <;> rfl
    · rfl
  · rfl

theorem stepReport_timings (st : RMState) (p : StreamingEvent × ℤ) :
    (stepReport st p).timings = st.timings := by
  unfold stepReport
  split <;> rfl

theorem stepReport_cur (st : RMState) (p : StreamingEvent × ℤ) :
    (stepReport st p).cur = st.cur := by
  unfold stepReport
  split <;> rfl

theorem stepReport_clock (st : RMState) (p : StreamingEvent × ℤ) :
    (stepReport st p).clock = st.clock := by
  unfold stepReport
  split <;> rfl

theorem stepStage_timing (st : RMState) (p : StreamingEvent × ℤ) :
    ((stepStage st p).timings, (stepStage st p).cur, (stepStage st p).clock) =
      match p.1.stage with
      | some s => trackStep (st.timings, st.cur, st.clock) (s.val, p.2)
      | none => (st.timings, st.cur, st.clock) := by
  unfold stepStage trackStep
  cases hstage : p.1.stage with
  | none => rfl
  | some s => by_cases h : s.val ≠ st.cur <;> simp [h]

theorem stepEvent_timing (st : RMState) (p : StreamingEvent × ℤ) :
    ((stepEvent st p).timings, (stepEvent st p).cur, (stepEvent st p).clock) =
      match p.1.stage with
      | some s => trackStep (st.timings, st.cur, st.clock) (s.val, p.2)
      | none => (st.timings, st.cur, st.clock) := by
  unfold stepEvent
  rw [stepReport_timings, stepReport_cur, stepReport_clock,
    stepTools_timings, stepTools_cur, stepTools_clock,
    stepSources_timings, stepSources_cur, stepSources_clock]
  exact stepStage_timing st p

theorem foldl_stepEvent_timing (timed : List (StreamingEvent × ℤ)) :
    ∀ st : RMState,
      ((timed.foldl stepEvent st).timings, (timed.foldl stepEvent st).cur,
        (timed.foldl stepEvent st).clock) =
        (stageSignals timed).foldl trackStep (st.timings, st.cur, st.clock) := by
  induction timed with
  | nil => intro st; rfl
  | cons p rest ih =>
      intro st
      rw [List.foldl_cons, ih (stepEvent st p)]
      have h := stepEvent_timing st p
      cases hstage : p.1.stage with
      | none =>
          rw [hstage] at h
          rw [h]
          unfold stageSignals
          rw [List.filterMap_cons]
          simp [hstage, stageSignals]
      | some s =>
          rw [hstage] at h
          rw [h]
          unfold stageSignals
          rw [List.filterMap_cons]
          simp [hstage, stageSignals, List.foldl_cons]

theorem run_model_research_timings (model : String)
    (timed : List (StreamingEvent × ℤ)) (start_time end_time : ℤ) :
    (run_model_research model timed start_time end_time).stage_timings =
      trackerTimings start_time (stageSignals timed) end_time := by
  have h := foldl_stepEvent_timing timed
    { cur := "clarification", clock := start_time, timings := {},
      sources := 0, tools := [], report := "" }
  show assignStage (timed.foldl stepEvent _).timings (timed.foldl stepEvent _).cur
      (end_time - (timed.foldl stepEvent _).clock) = _
  unfold trackerTimings finalizeTrack
  rw [← h]

theorem intervalsFrom_cons (cur : String) (clock : ℤ) (s : String) (t : ℤ)
    (rest : List (String × ℤ)) (tEnd : ℤ) :
    intervalsFrom cur clock ((s, t) :: rest) tEnd =
      if s ≠ cur then (cur, t - clock) :: intervalsFrom s t rest tEnd
      else intervalsFrom cur clock rest tEnd := rfl

theorem trackStep_eq (st : StageTimings) (cur : String) (clock : ℤ)
    (s : String) (t : ℤ) :
    trackStep (st, cur, clock) (s, t) =
      if s ≠ cur then (assignStage st cur (t - clock), s, t)
      else (st, cur, clock) := rfl

theorem sum_intervalsFrom (sigs : List (String × ℤ)) :
    ∀ (cur : String) (clock tEnd : ℤ),
      ((intervalsFrom cur clock sigs tEnd).map Prod.snd).sum = tEnd - clock := by
  induction sigs with
  | nil => intro cur clock tEnd; simp [intervalsFrom]
  | cons p rest ih =>
      intro cur clock tEnd
      rcases p with ⟨s, t⟩
      rw [intervalsFrom_cons]
      by_cases h : s ≠ cur
      · rw [if_pos h, List.map_cons, List.sum_cons, ih]
        ring
      · rw [if_neg h]
        exact ih cur clock tEnd

theorem track_finalize_eq_intervals (sigs : List (String × ℤ)) :
    ∀ (st : StageTimings) (cur : String) (clock tEnd : ℤ),
      finalizeTrack tEnd (sigs.foldl trackStep (st, cur, clock)) =
        (intervalsFrom cur clock sigs tEnd).foldl
          (fun a p => assignStage a p.1 p.2) st := by
  induction sigs with
  | nil => intro st cur clock tEnd; rfl
  | cons p rest ih =>
      intro st cur clock tEnd
      rcases p with ⟨s, t⟩
      rw [List.foldl_cons, trackStep_eq, intervalsFrom_cons]
      by_cases h : s ≠ cur
      · rw [if_pos h, if_pos h, List.foldl_cons]
        exact ih (assignStage st cur (t - clock)) s t tEnd
      · rw [if_neg h, if_neg h]
        exact ih st cur clock tEnd

theorem billed_cases (s : String) (h : billedStages.contains s = true) :
    s = "clarification" ∨ s = "research_brief" ∨ s = "research_execution" ∨
      s = "final_report" := by
  have hm : s ∈ billedStages := by simpa using h
  simpa [billedStages] using hm

theorem assignStage_unbilled (st : StageTimings) (s : String) (d : ℤ)
    (h : billedStages.contains s = false) : assignStage st s d = st := by
  have hm : s ∉ billedStages := by simpa using h
  simp only [billedStages, List.mem_cons, List.not_mem_nil, or_false, not_or] at hm
  unfold assignStage
  rw [if_neg (by simp [hm.1]), if_neg (by simp [hm.2.1]), if_neg (by simp [hm.2.2.1]),
    if_neg (by simp [hm.2.2.2])]

theorem getStage_zero (s : String) : getStage {} s = 0 := by
  unfold getStage
  split_ifs <;> rfl

theorem sumTimings_assign_billed (st : StageTimings) (s : String) (d : ℤ)
    (h : billedStages.contains s = true) :
    sumTimings (assignStage st s d) = sumTimings st - getStage st s + d := by
  rcases billed_cases s h with rfl | rfl | rfl | rfl <;>
    simp [assignStage, getStage, sumTimings] <;> ring

theorem getStage_assign_ne (st : StageTimings) (s : String) (d : ℤ) (s' : String)
    (h : s' ≠ s) : getStage (assignStage st s d) s' = getStage st s' := by
  unfold assignStage getStage
  by_cases h1 : (s == "clarification") = true <;>
    by_cases h2 : (s == "research_brief") = true <;>
      by_cases h3 : (s == "research_execution") = true <;>
        by_cases h4 : (s == "final_report") = true <;>
          simp_all [beq_iff_eq]

theorem countP_rest_le {α : Type} (p : α → Bool) (a : α) (rest : List α) (n : Nat)
    (h : (a :: rest).countP p ≤ n) : rest.countP p ≤ n := by
  rw [List.countP_cons] at h
  omega

theorem sumTimings_foldl_assign (L : List (String × ℤ)) :
    ∀ st : StageTimings,
      (∀ p ∈ L, billedStages.contains p.1 = true → getStage st p.1 = 0) →
      (∀ s, billedStages.contains s = true →
        L.countP (fun p => p.1 == s) ≤ 1) →
      sumTimings (L.foldl (fun a p => assignStage a p.1 p.2) st) =
        sumTimings st +
          ((L.filter (fun p => billedStages.contains p.1)).map Prod.snd).sum := by
  induction L with
  | nil => intro st _ _; simp
  | cons p rest ih =>
      intro st hzero hcount
      rcases p with ⟨s, d⟩
      rw [List.foldl_cons]
      by_cases hb : billedStages.contains s = true
      · have hz : getStage st s = 0 := hzero (s, d) (List.mem_cons_self _ _) hb
        have hzero' : ∀ q ∈ rest, billedStages.contains q.1 = true →
            getStage (assignStage st s d) q.1 = 0 := by
          intro q hq hqb
          by_cases hqs : q.1 = s
          · exfalso
            have hc := hcount s hb
            rw [List.countP_cons] at hc
            have hpos : 0 < rest.countP (fun p => p.1 == s) :=
              List.countP_pos_iff.mpr ⟨q, hq, by simp [hqs]⟩
            simp only [beq_self_eq_true, if_true] at hc
            omega
          · rw [getStage_assign_ne st s d q.1 hqs]
            exact hzero q (List.mem_cons_of_mem _ hq) hqb
        have hcount' : ∀ s', billedStages.contains s' = true →
            rest.countP (fun p => p.1 == s') ≤ 1 :=
          fun s' hs' => countP_rest_le _ _ _ _ (hcount s' hs')
        rw [ih (assignStage st s d) hzero' hcount']
        rw [sumTimings_assign_billed st s d hb, hz]
        rw [List.filter_cons]
        simp only [hb, if_true, List.map_cons, List.sum_cons]
        ring
      · have hb' : billedStages.contains s = false := by
          simpa using hb
        rw [assignStage_unbilled st s d hb']
        have hzero' : ∀ q ∈ rest, billedStages.contains q.1 = true →
            getStage st q.1 = 0 :=
          fun q hq => hzero q (List.mem_cons_of_mem _ hq)
        have hcount' : ∀ s', billedStages.contains s' = true →
            rest.countP (fun p => p.1 == s') ≤ 1 :=
          fun s' hs' => countP_rest_le _ _ _ _ (hcount s' hs')
        rw [ih st hzero' hcount']
        rw [List.filter_cons]
        simp only [hb', if_false, Bool.false_eq_true]

theorem sum_filter_split (L : List (String × ℤ)) (p : String × ℤ → Bool) :
    ((L.filter p).map Prod.snd).sum +
        ((L.filter (fun x => !(p x))).map Prod.snd).sum =
      (L.map Prod.snd).sum := by
  induction L with
  | nil => simp
  | cons a t ih =>
      by_cases h : p a = true
      · simp only [List.filter_cons, h, if_true, Bool.not_true, if_false,
          List.map_cons, List.sum_cons, Bool.false_eq_true]
        linarith
      · simp only [List.filter_cons, h, Bool.not_eq_true] at *
        simp only [List.filter_cons, h, Bool.not_false, if_true, if_false,
          List.map_cons, List.sum_cons, Bool.false_eq_true]
        linarith

/-- C3 as amended: the tracker starts billing `clarification` at run start;
on each transition it assigns (overwrites) the just-ended interval to the
stage being left; intervals whose current stage is `initialization`,
`completed` or `error` are discarded, and those stages are never credited.
Consequently, provided no billed stage's interval recurs, the sum of the
four credited components plus the discarded interval time equals
`finalization time − run start time` exactly — not the span from the first
signal. -/
theorem stage_timings_partition (model : String)
    (timed : List (StreamingEvent × ℤ)) (start_time end_time : ℤ)
    (h : ∀ s ∈ billedStages,
      (runIntervals start_time (stageSignals timed) end_time).countP
        (fun p => p.1 == s) ≤ 1) :
    sumTimings (run_model_research model timed start_time end_time).stage_timings +
        nonBilledTime start_time (stageSignals timed) end_time =
      end_time - start_time ∧
    ∀ (st : StageTimings) (s : String) (d : ℤ),
      s ∈ (["initialization", "completed", "error"] : List String) →
      assignStage st s d = st := by
  constructor
  · rw [run_model_research_timings]
    unfold trackerTimings
    rw [track_finalize_eq_intervals]
    have hsum := sumTimings_foldl_assign
      (runIntervals start_time (stageSignals timed) end_time) {}
      (fun p _ _ => getStage_zero p.1) (fun s hs => h s (by simpa using hs))
    unfold runIntervals at hsum
    rw [hsum]
    have h0 : sumTimings ({} : StageTimings) = 0 := by
      simp [sumTimings]
    have htot := sum_intervalsFrom (stageSignals timed) "clarification"
      start_time end_time
    have hsplit := sum_filter_split
      (intervalsFrom "clarification" start_time (stageSignals timed) end_time)
      (fun p => billedStages.contains p.1)
    unfold nonBilledTime runIntervals
    linarith
  · intro st s d hs
    simp only [List.mem_cons, List.not_mem_nil, or_false] at hs
    rcases hs with rfl | rfl | rfl <;> rfl

/-- Witness for C3's amended claim: a run over `[0, 6]` with signals
`initialization@1`, `research_brief@2`, `completed@5` (no billed stage
recurs) credits 1 to `clarification` and 3 to `research_brief`, discards
the 1 + 1 spent in `initialization` and `completed`, and `4 + 2 = 6 - 0`. -/
theorem stage_timings_partition_witness :
    (∀ s ∈ billedStages,
      (runIntervals 0 (stageSignals c3WitnessEvents) 6).countP
        (fun p => p.1 == s) ≤ 1) ∧
    (sumTimings (run_model_research "openai" c3WitnessEvents 0 6).stage_timings +
        nonBilledTime 0 (stageSignals c3WitnessEvents) 6 = 6 - 0 ∧
     ∀ (st : StageTimings) (s : String) (d : ℤ),
       s ∈ (["initialization", "completed", "error"] : List String) →
       assignStage st s d = st) :=
  ⟨by decide, stage_timings_partition "openai" c3WitnessEvents 0 6 (by decide)⟩

end DeepResearch
